import Mathlib

/-!
# Verification of the univariate KZG SRS module

Shallow embedding of `src/subroutines/src/pcs/univariate_kzg/srs.rs`
(`UnivariateUniversalParams`, `UnivariateProverParam`,
`UnivariateVerifierParam` and the `StructuredReferenceString`
implementation: `max_degree`, `extract_prover_param`,
`extract_verifier_param`, `trim`, `gen_srs_for_testing`).

Modelling conventions:
* The pairing engine `E : Pairing` is abstracted by a scalar field `F`
  (a commutative ring suffices for the statements proved here) and two
  groups `G1`, `G2` that are `F`-modules; `into_affine` is the identity
  in this model since affine/projective is a representation detail.
* A Rust panic (out-of-bounds slice or index) is modelled by `Option`:
  `none` is a panic, `some` a normal return.  Rust `Result<T, PCSError>`
  is modelled by `Except PCSError T`, so `trim` has the type
  `Option (Except PCSError _)`: the outer layer records panics, the
  inner one the declared error channel.
* The randomness source is modelled by passing the sampled values
  (`beta`, `g`, `h`) explicitly: `E::ScalarField::rand(rng)` and friends
  are the only uses of `rng`, so a run of `gen_srs_for_testing` is
  determined by those three draws.
* `BatchMulPreprocessing::batch_mul` is an external arkworks primitive;
  its interface (pointwise fixed-base scalar multiplication of a list of
  scalars) is modelled by `List.map (· • g)`.
-/

/-- Modelled from the spec: `PCSError`, the error type of the `pcs` crate,
is declared outside `src/`; the spec's error taxonomy (out-of-range size,
malformed parameter) only needs a distinguishable error value here, since
the code in `srs.rs` never constructs one. -/
inductive PCSError : Type where
  | invalidParameters : String → PCSError
deriving DecidableEq, Repr

/-- Structure `UnivariateUniversalParams` from `srs.rs`: `powers_of_g` holds the
G1 elements `β^i · g`, `h` the G2 generator, `beta_h = β · h`. -/
structure UnivariateUniversalParams (G1 G2 : Type) where
  powers_of_g : List G1
  h : G2
  beta_h : G2
deriving DecidableEq, Repr

/-- Structure `UnivariateProverParam` from `srs.rs`. -/
structure UnivariateProverParam (C : Type) where
  powers_of_g : List C
deriving DecidableEq, Repr

/-- Structure `UnivariateVerifierParam` from `srs.rs`. -/
structure UnivariateVerifierParam (G1 G2 : Type) where
  g : G1
  h : G2
  beta_h : G2
deriving DecidableEq, Repr

namespace UnivariateUniversalParams

/-- Method `max_degree` from `srs.rs`: returns `self.powers_of_g.len()`
(the length itself, not length minus one). -/
def max_degree {G1 G2 : Type} (self : UnivariateUniversalParams G1 G2) : Nat :=
  self.powers_of_g.length

end UnivariateUniversalParams

/-- Rust inclusive slice `&v[..=s]`: the prefix of length `s+1`, panicking
(`none`) when `s` is not a valid index of `v`. -/
def sliceToInclusive {α : Type} : List α → Nat → Option (List α)
  | [], _ => none
  | x :: _, 0 => some [x]
  | x :: xs, n + 1 => (sliceToInclusive xs n).map (fun t => x :: t)

/-- Rust index `v[0]`, panicking (`none`) on an empty vector. -/
def indexZero {α : Type} : List α → Option α
  | [] => none
  | x :: _ => some x

namespace UnivariateUniversalParams

variable {G1 G2 : Type}

/-- Method `extract_prover_param` from `srs.rs`:
`self.powers_of_g[..=supported_size].to_vec()`, wrapped in a
`UnivariateProverParam`.  The slice panics when
`supported_size ≥ powers_of_g.len()`. -/
def extract_prover_param (self : UnivariateUniversalParams G1 G2)
    (supported_size : Nat) : Option (UnivariateProverParam G1) :=
  (sliceToInclusive self.powers_of_g supported_size).map
    (fun powers => { powers_of_g := powers })

/-- Method `extract_verifier_param` from `srs.rs`: ignores `supported_size` and
returns `{ g: powers_of_g[0], h, beta_h }`; the index panics when
`powers_of_g` is empty. -/
def extract_verifier_param (self : UnivariateUniversalParams G1 G2)
    (_supported_size : Nat) : Option (UnivariateVerifierParam G1 G2) :=
  (indexZero self.powers_of_g).map
    (fun g0 => { g := g0, h := self.h, beta_h := self.beta_h })

/-- Method `trim` from `srs.rs`: slices `powers_of_g[..=supported_size]` for the
prover key, reads `powers_of_g[0]` for the verifier key, and returns
`Ok((pk, vk))`.  No `Err` is ever constructed; failures are panics. -/
def trim (self : UnivariateUniversalParams G1 G2) (supported_size : Nat) :
    Option (Except PCSError
      (UnivariateProverParam G1 × UnivariateVerifierParam G1 G2)) :=
  (sliceToInclusive self.powers_of_g supported_size).bind fun powers =>
    (indexZero self.powers_of_g).map fun g0 =>
      Except.ok
        ({ powers_of_g := powers },
         { g := g0, h := self.h, beta_h := self.beta_h })

end UnivariateUniversalParams

/-- The loop of `gen_srs_for_testing` building `powers_of_beta`: starting
from `cur`, push `cur` and multiply by `beta`, `n` times. -/
def powersOfBetaLoop {F : Type} [Mul F] (beta : F) : F → Nat → List F
  | _, 0 => []
  | cur, n + 1 => cur :: powersOfBetaLoop beta (cur * beta) n

/-- Function `gen_srs_for_testing` from `srs.rs`, with the three random draws
(`beta = ScalarField::rand`, `g = G1::rand`, `h = G2::rand`) passed in:
`powers_of_beta = [1, β, β², …, β^max_degree]` by the iterative loop,
`powers_of_g = batch_mul(powers_of_beta)` on base `g`, and
`beta_h = h·β`; returns `Ok`. -/
def gen_srs_for_testing {F G1 G2 : Type} [CommRing F]
    [AddCommGroup G1] [Module F G1] [AddCommGroup G2] [Module F G2]
    (beta : F) (g : G1) (h : G2) (max_degree : Nat) :
    Except PCSError (UnivariateUniversalParams G1 G2) :=
  let powers_of_beta : List F := 1 :: powersOfBetaLoop beta beta max_degree
  let powers_of_g : List G1 := powers_of_beta.map (fun s => s • g)
  let beta_h : G2 := beta • h
  Except.ok { powers_of_g := powers_of_g, h := h, beta_h := beta_h }

section BasicLemmas

variable {α : Type}

theorem sliceToInclusive_eq_none (l : List α) (n : Nat) (hn : l.length ≤ n) :
    sliceToInclusive l n = none := by
  induction l generalizing n with
  | nil => rfl
  | cons x xs ih =>
    cases n with
    | zero => simp at hn
    | succ m =>
      simp only [sliceToInclusive, ih m (by simpa using hn), Option.map_none']

theorem sliceToInclusive_eq_take (l : List α) (n : Nat) (hn : n < l.length) :
    sliceToInclusive l n = some (l.take (n + 1)) := by
  induction l generalizing n with
  | nil => simp at hn
  | cons x xs ih =>
    cases n with
    | zero => simp [sliceToInclusive]
    | succ m =>
      simp only [sliceToInclusive, ih m (by simpa using hn), Option.map_some',
        List.take_succ_cons]

theorem powersOfBetaLoop_length {F : Type} [Mul F] (beta cur : F) (n : Nat) :
    (powersOfBetaLoop beta cur n).length = n := by
  induction n generalizing cur with
  | zero => rfl
  | succ m ih => simp [powersOfBetaLoop, ih]

end BasicLemmas

section PowerSeries

variable {F : Type} [Monoid F]

theorem powersOfBetaLoop_getElem (beta cur : F) (n i : Nat) (hi : i < n) :
    (powersOfBetaLoop beta cur n)[i]? = some (cur * beta ^ i) := by
  induction n generalizing cur i with
  | zero => omega
  | succ m ih =>
    cases i with
    | zero => simp [powersOfBetaLoop]
    | succ j =>
      have hj : j < m := by omega
      calc (powersOfBetaLoop beta cur (m + 1))[j + 1]?
          = (powersOfBetaLoop beta (cur * beta) m)[j]? := by
            simp [powersOfBetaLoop]
        _ = some (cur * beta * beta ^ j) := ih (cur * beta) j hj
        _ = some (cur * beta ^ (j + 1)) := by
            rw [mul_assoc, ← pow_succ']

end PowerSeries

section GenLemmas

variable {F G1 G2 : Type} [CommRing F]
variable [AddCommGroup G1] [Module F G1] [AddCommGroup G2] [Module F G2]

theorem gen_srs_eq (beta : F) (g : G1) (h : G2) (D : Nat) :
    gen_srs_for_testing beta g h D = Except.ok
      ⟨((1 : F) :: powersOfBetaLoop beta beta D).map (fun s => s • g),
        h, beta • h⟩ := rfl

theorem gen_srs_powers_length (beta : F) (g : G1) (h : G2) (D : Nat) (pp)
    (hpp : gen_srs_for_testing beta g h D = Except.ok pp) :
    pp.powers_of_g.length = D + 1 := by
  rw [gen_srs_eq] at hpp
  injection hpp with hpp
  subst hpp
  simp [powersOfBetaLoop_length]

theorem gen_srs_powers_getElem (beta : F) (g : G1) (h : G2) (D : Nat) (pp)
    (hpp : gen_srs_for_testing beta g h D = Except.ok pp)
    (i : Nat) (hi : i ≤ D) :
    pp.powers_of_g[i]? = some (beta ^ i • g) := by
  rw [gen_srs_eq] at hpp
  injection hpp with hpp
  subst hpp
  cases i with
  | zero => simp
  | succ j =>
    have hj : j < D := by omega
    have hlen : j < (powersOfBetaLoop beta beta D).length := by
      simpa [powersOfBetaLoop_length] using hj
    simp only [List.getElem?_cons_succ, List.getElem?_map,
      powersOfBetaLoop_getElem beta beta D j hj, Option.map_some', one_mul,
      UnivariateUniversalParams.powers_of_g]
    rw [← pow_succ']

end GenLemmas

/-! ## Claims -/

/-- C1, counterexample: with the draws `beta = g = h = 1` over `ZMod 2` and
`max_degree = 0`, the generated parameters have `max_degree() = 1`, not `0`
as the claim requires (`max_degree` returns the length of `powers_of_g`,
which is `D + 1`). -/
theorem gen_srs_max_degree_cex :
    (gen_srs_for_testing (1 : ZMod 2) (1 : ZMod 2) (1 : ZMod 2) 0).map
      UnivariateUniversalParams.max_degree = Except.ok 1 ∧ (1 : Nat) ≠ 0 :=
  ⟨rfl, by decide⟩

/-- C1, amended: for every `D` and every outcome of the random draws,
`gen_srs_for_testing` returns parameters whose `powers_of_g` has length
`D + 1` and whose `max_degree()` is `D + 1` (the code's `max_degree`
returns `powers_of_g.len()`, not `len() - 1`). -/
theorem gen_srs_max_degree_amended {F G1 G2 : Type} [CommRing F]
    [AddCommGroup G1] [Module F G1] [AddCommGroup G2] [Module F G2]
    (beta : F) (g : G1) (h : G2) (D : Nat) :
    (gen_srs_for_testing beta g h D).map
        UnivariateUniversalParams.max_degree = Except.ok (D + 1) ∧
    (gen_srs_for_testing beta g h D).map
        (fun pp => pp.powers_of_g.length) = Except.ok (D + 1) := by
  rw [gen_srs_eq]
  constructor <;>
    simp [Except.map, UnivariateUniversalParams.max_degree,
      powersOfBetaLoop_length]

/-- C2, counterexample: on parameters with a single power and
`supported_size = 2 > max_degree() = 1`, both `extract_prover_param` and
`trim` panic on the out-of-bounds slice (`none`); neither returns an error
value of the declared error channel. -/
theorem extract_prover_param_oob_cex :
    (UnivariateUniversalParams.mk [(1 : ZMod 2)] (1 : ZMod 2)
        (1 : ZMod 2)).extract_prover_param 2 = none ∧
    (UnivariateUniversalParams.mk [(1 : ZMod 2)] (1 : ZMod 2)
        (1 : ZMod 2)).trim 2 = none ∧
    (UnivariateUniversalParams.mk [(1 : ZMod 2)] (1 : ZMod 2)
        (1 : ZMod 2)).max_degree < 2 :=
  ⟨rfl, rfl, by decide⟩

/-- C2, amended: for every `supported_size s > max_degree()`, both
`extract_prover_param(s)` and `trim(s)` panic on the out-of-bounds slice
(modelled by `none`); no result, truncated or otherwise, and no error
value of the declared error channel is returned. -/
theorem extract_prover_param_trim_oob_amended {G1 G2 : Type}
    (P : UnivariateUniversalParams G1 G2) (s : Nat)
    (hs : P.max_degree < s) :
    P.extract_prover_param s = none ∧ P.trim s = none := by
  have hz : sliceToInclusive P.powers_of_g s = none :=
    sliceToInclusive_eq_none P.powers_of_g s (le_of_lt hs)
  constructor <;>
    simp [UnivariateUniversalParams.extract_prover_param,
      UnivariateUniversalParams.trim, hz]

/-- C2, witness for the amended theorem at a concrete input. -/
theorem extract_prover_param_trim_oob_amended_witness :
    (UnivariateUniversalParams.mk [(1 : ZMod 2)] (1 : ZMod 2)
        (1 : ZMod 2)).extract_prover_param 5 = none ∧
    (UnivariateUniversalParams.mk [(1 : ZMod 2)] (1 : ZMod 2)
        (1 : ZMod 2)).trim 5 = none :=
  extract_prover_param_trim_oob_amended
    (UnivariateUniversalParams.mk [(1 : ZMod 2)] (1 : ZMod 2) (1 : ZMod 2))
    5 (by decide)

/-- C3, counterexample: `supported_size = 1` satisfies `1 ≤ max_degree()`
on parameters with one power (`max_degree()` is the length `1`), yet
`extract_prover_param 1` panics (`none`) instead of returning the claimed
prefix of length `2`. -/
theorem extract_prover_param_prefix_cex :
    1 ≤ (UnivariateUniversalParams.mk [(1 : ZMod 2)] (1 : ZMod 2)
        (1 : ZMod 2)).max_degree ∧
    (UnivariateUniversalParams.mk [(1 : ZMod 2)] (1 : ZMod 2)
        (1 : ZMod 2)).extract_prover_param 1 = none :=
  ⟨by decide, rfl⟩

/-- C3, amended: for every `supported_size s` with `s < max_degree()`
(equivalently `s ≤ powers_of_g.len() - 1`), `extract_prover_param(s)`
returns the prefix of `powers_of_g` of length `s + 1`, in order. -/
theorem extract_prover_param_prefix_amended {G1 G2 : Type}
    (P : UnivariateUniversalParams G1 G2) (s : Nat)
    (hs : s < P.max_degree) :
    P.extract_prover_param s =
      some ⟨P.powers_of_g.take (s + 1)⟩ ∧
    (P.powers_of_g.take (s + 1)).length = s + 1 := by
  have hz : sliceToInclusive P.powers_of_g s = some (P.powers_of_g.take (s + 1)) :=
    sliceToInclusive_eq_take P.powers_of_g s hs
  refine ⟨?_, ?_⟩
  · simp [UnivariateUniversalParams.extract_prover_param, hz]
  · have : s + 1 ≤ P.powers_of_g.length := hs
    simp [List.length_take, Nat.min_eq_left this]

/-- C3, witness for the amended theorem at a concrete input: extracting
with `s = 1` from three powers yields the first two, in order. -/
theorem extract_prover_param_prefix_amended_witness :
    (UnivariateUniversalParams.mk [(1 : ZMod 2), 0, 1] (1 : ZMod 2)
        (0 : ZMod 2)).extract_prover_param 1 =
      some ⟨[(1 : ZMod 2), 0, 1].take 2⟩ ∧
    ([(1 : ZMod 2), 0, 1].take 2).length = 2 :=
  extract_prover_param_prefix_amended
    (UnivariateUniversalParams.mk [(1 : ZMod 2), 0, 1] (1 : ZMod 2)
      (0 : ZMod 2)) 1 (by decide)

/-- C4: the generated parameters encode consecutive powers of the secret
scalar `beta` on the sampled G1 base `g`: `powers_of_g[i] = β^i • g` for
every `i ≤ D` (in particular `powers_of_g[0] = g`), and
`beta_h = β • h` on the sampled G2 base `h`. -/
theorem gen_srs_powers_structure {F G1 G2 : Type} [CommRing F]
    [AddCommGroup G1] [Module F G1] [AddCommGroup G2] [Module F G2]
    (beta : F) (g : G1) (h : G2) (D : Nat)
    (pp : UnivariateUniversalParams G1 G2)
    (hpp : gen_srs_for_testing beta g h D = Except.ok pp)
    (i : Nat) (hi : i ≤ D) :
    pp.powers_of_g[i]? = some (beta ^ i • g) ∧
    pp.powers_of_g[0]? = some g ∧
    pp.beta_h = beta • h := by
  refine ⟨gen_srs_powers_getElem beta g h D pp hpp i hi, ?_, ?_⟩
  · have h0 := gen_srs_powers_getElem beta g h D pp hpp 0 (Nat.zero_le D)
    simpa using h0
  · rw [gen_srs_eq] at hpp
    injection hpp with hpp
    subst hpp
    rfl

/-- C4, witness at a concrete input over `ZMod 2`. -/
theorem gen_srs_powers_structure_witness :
    (UnivariateUniversalParams.mk [(1 : ZMod 2), 1] (1 : ZMod 2)
        (1 : ZMod 2)).powers_of_g[1]? = some ((1 : ZMod 2) ^ 1 • (1 : ZMod 2)) ∧
    (UnivariateUniversalParams.mk [(1 : ZMod 2), 1] (1 : ZMod 2)
        (1 : ZMod 2)).powers_of_g[0]? = some (1 : ZMod 2) ∧
    (UnivariateUniversalParams.mk [(1 : ZMod 2), 1] (1 : ZMod 2)
        (1 : ZMod 2)).beta_h = (1 : ZMod 2) • (1 : ZMod 2) :=
  gen_srs_powers_structure (1 : ZMod 2) (1 : ZMod 2) (1 : ZMod 2) 1
    (UnivariateUniversalParams.mk [(1 : ZMod 2), 1] (1 : ZMod 2) (1 : ZMod 2))
    (by rfl) 1 (by decide)

/-- C5: `extract_verifier_param` is degree-independent — for any two
in-range sizes the results coincide, and whenever `powers_of_g` starts
with `g0` the result is the fixed triple `{ g = g0, h, beta_h }`. -/
theorem extract_verifier_param_degree_independent {G1 G2 : Type}
    (P : UnivariateUniversalParams G1 G2) (s1 s2 : Nat)
    (_h1 : s1 ≤ P.max_degree) (_h2 : s2 ≤ P.max_degree) :
    P.extract_verifier_param s1 = P.extract_verifier_param s2 ∧
    ∀ g0 t, P.powers_of_g = g0 :: t →
      P.extract_verifier_param s1 =
        some (UnivariateVerifierParam.mk g0 P.h P.beta_h) := by
  refine ⟨rfl, ?_⟩
  intro g0 t hgt
  simp [UnivariateUniversalParams.extract_verifier_param, hgt, indexZero]

/-- C5, witness at a concrete input: sizes `0` and `2`, both at most
`max_degree() = 2`. -/
theorem extract_verifier_param_degree_independent_witness :
    (UnivariateUniversalParams.mk [(1 : ZMod 2), 0] (1 : ZMod 2)
        (0 : ZMod 2)).extract_verifier_param 0 =
      (UnivariateUniversalParams.mk [(1 : ZMod 2), 0] (1 : ZMod 2)
        (0 : ZMod 2)).extract_verifier_param 2 ∧
    (UnivariateUniversalParams.mk [(1 : ZMod 2), 0] (1 : ZMod 2)
        (0 : ZMod 2)).extract_verifier_param 0 =
      some (UnivariateVerifierParam.mk (1 : ZMod 2) (1 : ZMod 2)
        (0 : ZMod 2)) :=
  ⟨(extract_verifier_param_degree_independent
      (UnivariateUniversalParams.mk [(1 : ZMod 2), 0] (1 : ZMod 2)
        (0 : ZMod 2)) 0 2 (by decide) (by decide)).1,
   (extract_verifier_param_degree_independent
      (UnivariateUniversalParams.mk [(1 : ZMod 2), 0] (1 : ZMod 2)
        (0 : ZMod 2)) 0 2 (by decide) (by decide)).2
     (1 : ZMod 2) [0] rfl⟩

/-- Modelled from the spec's words, for the refinement claim C6 only:
`trim` as the literal pair of the two extraction operations called with
the same input, failing exactly when one of them fails. -/
def trimSpec {G1 G2 : Type} (P : UnivariateUniversalParams G1 G2)
    (supported_size : Nat) :
    Option (Except PCSError
      (UnivariateProverParam G1 × UnivariateVerifierParam G1 G2)) :=
  match P.extract_prover_param supported_size,
        P.extract_verifier_param supported_size with
  | some pk, some vk => some (Except.ok (pk, vk))
  | _, _ => none

/-- C6: `trim(s)` agrees everywhere with the pair
`(extract_prover_param(s), extract_verifier_param(s))`: the same `Ok`
pair on in-range sizes and the same failure on out-of-range sizes. -/
theorem trim_eq_pair_of_extracts {G1 G2 : Type}
    (P : UnivariateUniversalParams G1 G2) (s : Nat) :
    P.trim s = trimSpec P s := by
  unfold UnivariateUniversalParams.trim trimSpec
    UnivariateUniversalParams.extract_prover_param
    UnivariateUniversalParams.extract_verifier_param
  cases hsl : sliceToInclusive P.powers_of_g s with
  | none => simp
  | some powers =>
    cases hiz : indexZero P.powers_of_g with
    | none => simp
    | some g0 => simp

/-- C8: whenever `trim` returns a value instead of panicking, that value
is `Ok`: the declared error branch of its result type is unreachable. -/
theorem trim_some_is_ok {G1 G2 : Type}
    (P : UnivariateUniversalParams G1 G2) (s : Nat)
    (r : Except PCSError
      (UnivariateProverParam G1 × UnivariateVerifierParam G1 G2))
    (hr : P.trim s = some r) : r.isOk = true := by
  unfold UnivariateUniversalParams.trim at hr
  cases hsl : sliceToInclusive P.powers_of_g s with
  | none => rw [hsl] at hr; simp at hr
  | some powers =>
    cases hiz : indexZero P.powers_of_g with
    | none => rw [hsl, hiz] at hr; simp at hr
    | some g0 =>
      rw [hsl, hiz] at hr
      simp only [Option.some_bind, Option.map_some', Option.some.injEq] at hr
      subst hr
      rfl

/-- C8, witness at a concrete input: `trim 0` on a one-power SRS returns
`some` of an `Ok` value. -/
theorem trim_some_is_ok_witness :
    (Except.ok
      (UnivariateProverParam.mk [(1 : ZMod 2)],
       UnivariateVerifierParam.mk (1 : ZMod 2) (1 : ZMod 2) (1 : ZMod 2)) :
      Except PCSError
        (UnivariateProverParam (ZMod 2) ×
         UnivariateVerifierParam (ZMod 2) (ZMod 2))).isOk = true :=
  trim_some_is_ok
    (UnivariateUniversalParams.mk [(1 : ZMod 2)] (1 : ZMod 2) (1 : ZMod 2))
    0 _ (by rfl)

/-- C9: `extract_verifier_param` ignores its size argument entirely —
any two sizes (in range or not) give the same result — and it panics
(`none`) exactly when `powers_of_g` is empty, succeeding otherwise. -/
theorem extract_verifier_param_ignores_size {G1 G2 : Type}
    (P : UnivariateUniversalParams G1 G2) (s1 s2 s : Nat) :
    P.extract_verifier_param s1 = P.extract_verifier_param s2 ∧
    (P.extract_verifier_param s = none ↔ P.powers_of_g = []) := by
  refine ⟨rfl, ?_⟩
  cases hgt : P.powers_of_g with
  | nil => simp [UnivariateUniversalParams.extract_verifier_param, hgt, indexZero]
  | cons g0 t =>
    simp [UnivariateUniversalParams.extract_verifier_param, hgt, indexZero]

/-- C9, witness at concrete inputs: size `7` exceeds `max_degree() = 1`
yet extraction succeeds, and the empty (`Default`-like) parameters make
it panic. -/
theorem extract_verifier_param_ignores_size_witness :
    ((UnivariateUniversalParams.mk [(1 : ZMod 2)] (1 : ZMod 2)
        (1 : ZMod 2)).extract_verifier_param 0 =
      (UnivariateUniversalParams.mk [(1 : ZMod 2)] (1 : ZMod 2)
        (1 : ZMod 2)).extract_verifier_param 7 ∧
    ((UnivariateUniversalParams.mk [(1 : ZMod 2)] (1 : ZMod 2)
        (1 : ZMod 2)).extract_verifier_param 7 = none ↔
      (UnivariateUniversalParams.mk [(1 : ZMod 2)] (1 : ZMod 2)
        (1 : ZMod 2)).powers_of_g = [])) ∧
    ((UnivariateUniversalParams.mk ([] : List (ZMod 2)) (1 : ZMod 2)
        (1 : ZMod 2)).extract_verifier_param 3 = none ↔
      (UnivariateUniversalParams.mk ([] : List (ZMod 2)) (1 : ZMod 2)
        (1 : ZMod 2)).powers_of_g = []) :=
  ⟨extract_verifier_param_ignores_size
      (UnivariateUniversalParams.mk [(1 : ZMod 2)] (1 : ZMod 2) (1 : ZMod 2))
      0 7 7,
   (extract_verifier_param_ignores_size
      (UnivariateUniversalParams.mk ([] : List (ZMod 2)) (1 : ZMod 2)
        (1 : ZMod 2)) 0 0 3).2⟩

/-- C10: `gen_srs_for_testing` never reaches its error branch: for every
outcome of the random draws and every `max_degree` (including `0`) it
returns `Ok` with a fully populated value (`D + 1` powers). -/
theorem gen_srs_never_errors {F G1 G2 : Type} [CommRing F]
    [AddCommGroup G1] [Module F G1] [AddCommGroup G2] [Module F G2]
    (beta : F) (g : G1) (h : G2) (D : Nat) :
    (gen_srs_for_testing beta g h D).isOk = true ∧
    (gen_srs_for_testing beta g h D).map
      (fun pp => pp.powers_of_g.length) = Except.ok (D + 1) := by
  rw [gen_srs_eq]
  exact ⟨rfl, by simp [Except.map, powersOfBetaLoop_length]⟩

section Serialization

variable {G1 G2 : Type}

/-- Modelled from the spec: the canonical serialization derives
(`CanonicalSerialize` / `CanonicalDeserialize` of `ark_serialize`) are
external to `src/`; §6 fixes the layouts.  `readElems dec n count bs`
reads `count` fixed-width (`n`-byte) group elements from the byte stream
`bs`, decoding each with the element decoder `dec`; a chunk that does not
decode is a malformed-parameter failure (`none`).  Returns the decoded
elements and the unread remainder. -/
def readElems {α : Type} (dec : List Nat → Option α) (n : Nat) :
    Nat → List Nat → Option (List α × List Nat)
  | 0, bs => some ([], bs)
  | count + 1, bs =>
    match dec (bs.take n) with
    | none => none
    | some e =>
      match readElems dec n count (bs.drop n) with
      | none => none
      | some (es, rest) => some (e :: es, rest)

/-- Modelled from the spec (§6): Universal Parameters serialize as a
length-prefixed sequence of G1 elements, followed by the G2 element `h`,
followed by the G2 element `beta_h`, each element in the canonical
encoding (`encG1`, `encG2`) supplied by the external arithmetic layer. -/
def serializeUniversal (encG1 : G1 → List Nat) (encG2 : G2 → List Nat)
    (pp : UnivariateUniversalParams G1 G2) : List Nat :=
  pp.powers_of_g.length ::
    ((pp.powers_of_g.map encG1).flatten ++ (encG2 pp.h ++ encG2 pp.beta_h))

/-- Modelled from the spec (§6): deserialization of Universal Parameters
reads the length prefix, that many `n1`-byte G1 elements, then two
`n2`-byte G2 elements, and requires the input to be consumed exactly;
any failure is a malformed-parameter error (`none`), never a partially
populated value. -/
def deserializeUniversal (n1 n2 : Nat) (decG1 : List Nat → Option G1)
    (decG2 : List Nat → Option G2) (bytes : List Nat) :
    Option (UnivariateUniversalParams G1 G2) :=
  match bytes with
  | [] => none
  | count :: rest =>
    match readElems decG1 n1 count rest with
    | none => none
    | some (gs, rest1) =>
      match decG2 (rest1.take n2) with
      | none => none
      | some hh =>
        match decG2 ((rest1.drop n2).take n2) with
        | none => none
        | some bh =>
          if ((rest1.drop n2).drop n2).isEmpty then
            some ⟨gs, hh, bh⟩
          else none

/-- Modelled from the spec (§6): Prover Parameters serialize as a single
length-prefixed sequence of G1 elements. -/
def serializeProver (encG1 : G1 → List Nat)
    (pk : UnivariateProverParam G1) : List Nat :=
  pk.powers_of_g.length :: (pk.powers_of_g.map encG1).flatten

/-- Modelled from the spec (§6): deserialization of Prover Parameters
reads the length prefix and that many `n1`-byte G1 elements, requiring
exact consumption. -/
def deserializeProver (n1 : Nat) (decG1 : List Nat → Option G1)
    (bytes : List Nat) : Option (UnivariateProverParam G1) :=
  match bytes with
  | [] => none
  | count :: rest =>
    match readElems decG1 n1 count rest with
    | none => none
    | some (gs, rest1) =>
      if rest1.isEmpty then some ⟨gs⟩ else none

/-- Modelled from the spec (§6): Verifier Parameters serialize as exactly
three group elements in fixed order `(g, h, beta_h)`, with no length
prefix. -/
def serializeVerifier (encG1 : G1 → List Nat) (encG2 : G2 → List Nat)
    (vk : UnivariateVerifierParam G1 G2) : List Nat :=
  encG1 vk.g ++ (encG2 vk.h ++ encG2 vk.beta_h)

/-- Modelled from the spec (§6): deserialization of Verifier Parameters
reads one `n1`-byte G1 element and two `n2`-byte G2 elements, requiring
exact consumption. -/
def deserializeVerifier (n1 n2 : Nat) (decG1 : List Nat → Option G1)
    (decG2 : List Nat → Option G2) (bytes : List Nat) :
    Option (UnivariateVerifierParam G1 G2) :=
  match decG1 (bytes.take n1) with
  | none => none
  | some g0 =>
    match decG2 ((bytes.drop n1).take n2) with
    | none => none
    | some hh =>
      match decG2 (((bytes.drop n1).drop n2).take n2) with
      | none => none
      | some bh =>
        if (((bytes.drop n1).drop n2).drop n2).isEmpty then
          some ⟨g0, hh, bh⟩
        else none

theorem readElems_round_trip {α : Type} (enc : α → List Nat)
    (dec : List Nat → Option α) (n : Nat)
    (hlen : ∀ x, (enc x).length = n) (hdec : ∀ x, dec (enc x) = some x)
    (l : List α) (tail : List Nat) :
    readElems dec n l.length ((l.map enc).flatten ++ tail) = some (l, tail) := by
  induction l with
  | nil => simp [readElems]
  | cons x xs ih =>
    have hshape : ((x :: xs).map enc).flatten ++ tail =
        enc x ++ ((xs.map enc).flatten ++ tail) := by
      simp [List.append_assoc]
    rw [List.length_cons, hshape]
    simp only [readElems, List.take_left' (hlen x), hdec x,
      List.drop_left' (hlen x), ih]

end Serialization

/-- C7: round-trip fidelity of the canonical layouts of §6 — for every
Universal, Prover, and Verifier Parameters value, deserializing the
serialization yields the value back, given any fixed-width canonical
element encoding (`encG1`/`encG2` injective with the stated decoders). -/
theorem serialization_round_trip {G1 G2 : Type} (n1 n2 : Nat)
    (encG1 : G1 → List Nat) (decG1 : List Nat → Option G1)
    (encG2 : G2 → List Nat) (decG2 : List Nat → Option G2)
    (hl1 : ∀ x, (encG1 x).length = n1) (hd1 : ∀ x, decG1 (encG1 x) = some x)
    (hl2 : ∀ x, (encG2 x).length = n2) (hd2 : ∀ x, decG2 (encG2 x) = some x)
    (pp : UnivariateUniversalParams G1 G2) (pk : UnivariateProverParam G1)
    (vk : UnivariateVerifierParam G1 G2) :
    deserializeUniversal n1 n2 decG1 decG2
        (serializeUniversal encG1 encG2 pp) = some pp ∧
    deserializeProver n1 decG1 (serializeProver encG1 pk) = some pk ∧
    deserializeVerifier n1 n2 decG1 decG2
        (serializeVerifier encG1 encG2 vk) = some vk := by
  refine ⟨?_, ?_, ?_⟩
  · obtain ⟨gl, hh, bh⟩ := pp
    have hread := readElems_round_trip encG1 decG1 n1 hl1 hd1 gl
      (encG2 hh ++ encG2 bh)
    unfold serializeUniversal deserializeUniversal
    simp only [hread, List.take_left' (hl2 hh), hd2 hh,
      List.drop_left' (hl2 hh),
      List.take_of_length_le (le_of_eq (hl2 bh)), hd2 bh,
      List.drop_eq_nil_of_le (le_of_eq (hl2 bh)), List.isEmpty_nil,
      if_true]
  · obtain ⟨gl⟩ := pk
    have hread := readElems_round_trip encG1 decG1 n1 hl1 hd1 gl []
    rw [List.append_nil] at hread
    unfold serializeProver deserializeProver
    simp only [hread, List.isEmpty_nil, if_true]
  · obtain ⟨g0, hh, bh⟩ := vk
    unfold serializeVerifier deserializeVerifier
    simp only [List.take_left' (hl1 g0), hd1 g0, List.drop_left' (hl1 g0),
      List.take_left' (hl2 hh), hd2 hh, List.drop_left' (hl2 hh),
      List.take_of_length_le (le_of_eq (hl2 bh)), hd2 bh,
      List.drop_eq_nil_of_le (le_of_eq (hl2 bh)), List.isEmpty_nil,
      if_true]

/-- Canonical one-byte encoding of `Bool`, used only to instantiate the
round-trip theorem on a concrete group type. -/
def encBool (b : Bool) : List Nat := [cond b 1 0]

/-- Decoder matching `encBool`, rejecting malformed bytes. -/
def decBool : List Nat → Option Bool
  | [0] => some false
  | [1] => some true
  | _ => none

/-- C7, witness at concrete inputs over `Bool` with the one-byte
encoding. -/
theorem serialization_round_trip_witness :
    deserializeUniversal 1 1 decBool decBool
        (serializeUniversal encBool encBool
          (UnivariateUniversalParams.mk [true, false] true false)) =
      some (UnivariateUniversalParams.mk [true, false] true false) ∧
    deserializeProver 1 decBool
        (serializeProver encBool (UnivariateProverParam.mk [false, true])) =
      some (UnivariateProverParam.mk [false, true]) ∧
    deserializeVerifier 1 1 decBool decBool
        (serializeVerifier encBool encBool
          (UnivariateVerifierParam.mk true false true)) =
      some (UnivariateVerifierParam.mk true false true) :=
  serialization_round_trip 1 1 encBool decBool encBool decBool
    (by decide) (by decide) (by decide) (by decide)
    (UnivariateUniversalParams.mk [true, false] true false)
    (UnivariateProverParam.mk [false, true])
    (UnivariateVerifierParam.mk true false true)
